import Mathlib

/-!
Verification of the declaration-to-schema translation engine of
ts-joi-schema-generator (src/lib/index.ts) against its specification.

The TypeScript compiler class is embedded shallowly: every `ts.SyntaxKind`
consumed by `Compiler.compileNode` becomes a constructor of `TsNode`
carrying exactly the data the method reads off the node, type-checker
lookups (`getSymbolAtLocation`, `getConstantValue`, module resolution) are
pre-resolved onto the nodes, thrown `Error`s become `Except.error` of the
same message, and the one mutable field `exportedNames` (push-only) is
modelled by returning the names each call pushes, in push order.  The
`parent`-is-a-source-file test of the catch-all branch is modelled by a
boolean passed down the recursion: statements of a source file are compiled
with it set, every nested recursive call clears it.
-/

/-- Compiler options record (`ICompilerOptions`, src/lib/index.ts:18-24).
The three optional booleans are modelled as plain booleans (absent and
`false` are indistinguishable to the code, which only tests truthiness). -/
structure ICompilerOptions where
  ignoreGenerics : Bool
  ignoreIndexSignature : Bool
  inlineImports : Bool
  outDir : Option String
  suffix : String

/-- Truthiness of the optional `outDir` option exactly as the JavaScript
test `this.options.outDir ? ... : ...` evaluates it: `undefined` and the
empty string are falsy. -/
def outDirTruthy (o : Option String) : Bool := o.getD "" != ""

/-- Default suffix appended to generated files (src/lib/index.ts:9). -/
def defaultSuffix : String := "-schema"

/-- Sentinel for a node whose compilation is ignored (src/lib/index.ts:16). -/
def ignoreNode : String := ""

namespace NodePath

/-- Drop trailing path separators, as Node's posix path functions do before
splitting off the last component. -/
def dropTrailingSeps (l : List Char) : List Char :=
  (l.reverse.dropWhile (fun c => c == '/')).reverse

/-- Last path component of `p` (trailing separators ignored), as a list of
characters. -/
def lastComponent (p : String) : List Char :=
  ((dropTrailingSeps p.toList).reverse.takeWhile (fun c => c != '/')).reverse

/-- Modelled from Node's `path.dirname` (posix): everything before the last
component, `"."` when there is no directory part, `"/"` for paths directly
under the root. -/
def dirname (p : String) : String :=
  if p.toList.isEmpty then "." else
  let l := dropTrailingSeps p.toList
  let pre := dropTrailingSeps ((l.reverse.dropWhile (fun c => c != '/')).reverse)
  if pre.isEmpty then (if p.toList.headD ' ' == '/' then "/" else ".")
  else String.mk pre

/-- Modelled from Node's `path.basename(p, ext)` (posix): the last component
of `p`, with `ext` removed when it is a proper suffix of that component. -/
def basename (p : String) (ext : String) : String :=
  let b := String.mk (lastComponent p)
  if ext != "" && b != ext && ext.toList.isSuffixOf b.toList then
    String.mk (b.toList.take (b.toList.length - ext.toList.length))
  else b

/-- Modelled from Node's `path.extname` (posix): the suffix of the last
component from its final dot on; empty when the component has no dot or when
its only dot is the leading character of a dotfile. -/
def extname (p : String) : String :=
  let b := lastComponent p
  let afterDot := b.reverse.takeWhile (fun c => c != '.')
  if afterDot.length == b.length then ""
  else if afterDot.length + 1 == b.length then ""
  else String.mk ('.' :: afterDot.reverse)

end NodePath

/-- Constant value of an enum member as `checker.getConstantValue` returns
it: `string | number` in TypeScript, with the `undefined` case modelled by
`Option` at the use site.  Numeric constant values are modelled as
integers. -/
inductive ConstValue where
  | str (s : String)
  | num (n : Int)

/-- Modelled from the TypeScript-internal `getTextOfConstantValue` that
src/lib/index.ts:342 reaches through a cast: a number prints as its literal
text, a string prints double-quoted with backslashes and quotes escaped. -/
def tsGetTextOfConstantValue : ConstValue → String
  | .str s => "\"" ++ String.join (s.toList.map (fun c =>
      if c == '\\' then "\\\\" else if c == '"' then "\\\"" else String.singleton c)) ++ "\""
  | .num n => toString n

/-- getTextOfConstantValue (src/lib/index.ts:339-343): `"undefined"` when
the checker found no constant value, the library's text otherwise. -/
def getTextOfConstantValue : Option ConstValue → String
  | none => "undefined"
  | some v => tsGetTextOfConstantValue v

/-- getName (src/lib/index.ts:46-49).  The checker's symbol lookup is
modelled by carrying the resolved symbol name on the node (`none` when no
symbol is found); the method returns that name or `"unknown"`. -/
def getName (symName : Option String) : String := symName.getD "unknown"

/-- JavaScript's `String.prototype.startsWith`, modelled on the character
list (Lean's own `String.startsWith` is byte-position based and is not
definitionally reducible, which the proofs below rely on). -/
def strStartsWith (s pre : String) : Bool := pre.toList.isPrefixOf s.toList

/-- indent (src/lib/index.ts:51-53): `content.replace(/\n/g, "\n  ")`,
modelled as inserting two spaces after every newline character (the global
replace rewrites each newline exactly once, and the pattern is a single
character, so occurrences cannot overlap). -/
def indent (content : String) : String :=
  String.mk (content.toList.flatMap (fun c => if c == '\n' then ['\n', ' ', ' '] else [c]))

/-- hasTag (src/lib/index.ts:333-336).  The JSDoc tags of a node are
carried as their source texts; the method looks for the exact text
`"@" ++ tagName`. -/
def hasTag (tags : List String) (tagName : String) : Bool :=
  tags.any (fun t => t == "@" ++ tagName)

/-- One element of a named import/export clause: the optional
`propertyName` (the original name of `original as local`) and `name`, both
as source texts. -/
structure BindingElem where
  propertyName : Option String
  name : String

/-- Named bindings of an import clause (`node.importClause.namedBindings`):
either named imports with their elements, or a namespace import, whose kind
is not `SyntaxKind.NamedImports` and which the rewriting branch skips. -/
inductive NamedBindings where
  | namedImports (elements : List BindingElem)
  | namespaceImport

/-- Import clause of an import declaration (`node.importClause`). -/
structure ImportClauseNode where
  namedBindings : Option NamedBindings

/-- Rendering of clause elements shared by the export loop
(src/lib/index.ts:234-247) and the import loop (270-283): `original as
local` when a propertyName is present, the bare name otherwise; the `first`
flag of the source builds exactly this comma-separated interleaving. -/
def renderClauseParts (elems : List BindingElem) : String :=
  String.intercalate ", " (elems.map (fun e =>
    match e.propertyName with
    | some p => p ++ " as " ++ e.name
    | none => e.name))

/-- `rawModuleSpecifier.substring(1, rawModuleSpecifier.length - 1)`
(src/lib/index.ts:230 and 263): the specifier text without its two quote
characters. -/
def stripQuotes (raw : String) : String := (raw.drop 1).dropRight 1

/-- Module-specifier rewriting shared by `_compileExportDeclaration`
(src/lib/index.ts:250-253) and `_compileImportDeclaration` (286-289):
`ext := path.extname(filePath)`, `dir := outDir ? "./" :
path.dirname(filePath)`, and the template
`` `${dir}${path.basename(filePath, ext) + this.options.suffix}` ``. -/
def formatOutPath (options : ICompilerOptions) (filePath : String) : String :=
  let ext := NodePath.extname filePath
  let dir := if outDirTruthy options.outDir then "./" else NodePath.dirname filePath
  dir ++ (NodePath.basename filePath ext ++ options.suffix)

/-- Import-rewriting branch of `_compileImportDeclaration`
(src/lib/index.ts:261-293): when the declaration has an import clause, a
relative module specifier and named imports, the rewritten import statement
is produced; in every other case the method falls through to the
`inlineImports` block. -/
def rewriteNamedImport (options : ICompilerOptions)
    (importClause : Option ImportClauseNode) (rawSpec : String) : Option String :=
  match importClause with
  | some clause =>
    if strStartsWith (stripQuotes rawSpec) "." then
      match clause.namedBindings with
      | some (.namedImports elems) =>
        some ("import \x7b " ++ renderClauseParts elems ++ " \x7d from \x27" ++
          formatOutPath options (stripQuotes rawSpec) ++ "\x27")
      | _ => none
    else none
  | none => none

/-- Type-graph nodes: one constructor per `ts.SyntaxKind` that
`compileNode` (src/lib/index.ts:54-99) consumes, carrying exactly the data
the per-kind method reads.  `symName` fields carry the checker's resolved
symbol name, enum members carry their folded constant values, and
`resolvedDecls` of an import carries the declarations of the symbol the
checker resolves for the module specifier (empty when the symbol or its
declaration list is missing, which the source code treats identically).
Heritage clause types are carried flattened in clause order, the only order
in which the source reads them (src/lib/index.ts:194-198).  `text` fields
carry `node.getText()` where the source calls it.  Any kind outside this
grammar is `unsupported`. -/
inductive TsNode where
  | ident (text : String)
  | parameter (symName : Option String) (questionToken : Bool) (type : Option TsNode)
  | propertySignature (symName : Option String) (questionToken : Bool) (type : Option TsNode)
  | methodSignature (symName : Option String)
  | typeRef (text : String) (typeNameText : String) (typeArguments : Option (List TsNode))
  | functionType
  | typeLiteral (members : List TsNode)
  | arrayType (elementType : TsNode)
  | tupleType (elementTypes : List TsNode)
  | unionType (types : List TsNode)
  | literalType (text : String)
  | enumDecl (tags : List String) (symName : Option String)
      (members : List (Option ConstValue))
  | interfaceDecl (tags : List String) (symName : Option String)
      (members : List TsNode) (heritage : List TsNode)
  | typeAliasDecl (tags : List String) (symName : Option String) (type : TsNode)
  | exprWithTypeArgs (expression : TsNode)
  | parenType (type : TsNode)
  | exportDecl (exportClause : Option (List BindingElem)) (moduleSpecifier : Option String)
  | importDecl (importClause : Option ImportClauseNode) (moduleSpecifier : String)
      (resolvedDecls : List TsNode)
  | sourceFile (fileId : Nat) (statements : List TsNode)
  | anyKeyword
  | numberKeyword
  | objectKeyword
  | booleanKeyword
  | stringKeyword
  | symbolKeyword
  | undefinedKeyword
  | nullKeyword
  | neverKeyword
  | indexSignature (text : String)
  | unsupported (kindName : String) (text : String)

/-- Per-compilation state of the `Compiler` class that the translation
reads: the options record and the identity of `topNode` (source-file nodes
carry a `fileId`, and the object-identity test `node !== this.topNode` is
modelled by comparing ids). -/
structure Compiler where
  options : ICompilerOptions
  topId : Nat

/-- Result of one compile call: the produced text together with the names
the call pushes onto `exportedNames` (in push order), or the message of the
`Error` it throws. -/
abbrev CompRes := Except String (String × List String)

mutual

/-- compileNode (src/lib/index.ts:54-99) with the bodies of the per-kind
`_compile*` methods inlined at their dispatch sites.  The boolean argument
is the catch-all branch's `ts.isSourceFile(node.parent!)`: true exactly
when the node is a direct statement of a source file. -/
def compileNode (c : Compiler) : Bool → TsNode → CompRes
  -- _compileIdentifier (105-107): node.getText()
  | _, .ident text => .ok (text, [])
  -- _compileParameterDeclaration (108-112)
  | _, .parameter symName q ty =>
    match compileOptType c ty with
    | .error e => .error e
    | .ok (t, d) =>
      .ok ("Param(\x27" ++ getName symName ++ "\x27, " ++ t ++
        (if q then ", optional" else "") ++ ")", d)
  -- _compilePropertySignature (113-118)
  | _, .propertySignature symName q ty =>
    match compileOptType c ty with
    | .error e => .error e
    | .ok (t, d) =>
      .ok ("\x27" ++ getName symName ++ "\x27: " ++
        (if q then t else t ++ ".required()"), d)
  -- _compileMethodSignature (119-125)
  | _, .methodSignature symName =>
    .ok ("\x27" ++ getName symName ++ "\x27: Joi.func().required()", [])
  -- _compileTypeReferenceNode (126-146)
  | _, .typeRef text typeNameText typeArguments =>
    match typeArguments with
    | none =>
      if typeNameText == "Date" then .ok ("Joi.date()", [])
      else if typeNameText == "Buffer" then .ok ("Joi.binary()", [])
      else .ok ("Joi.lazy(() => " ++ typeNameText ++ ")", [])
    | some args =>
      if typeNameText == "Array" then
        match args with
        -- indexing typeArguments[0] of an empty list crashes in JavaScript
        | [] => .error "TypeError: typeArguments[0] is undefined"
        | a :: _ =>
          match compileNode c false a with
          | .error e => .error e
          | .ok (t, d) => .ok ("Joi.array().items(" ++ t ++ ")", d)
      else if c.options.ignoreGenerics then .ok ("Joi.any()", [])
      else .error ("Generics are not yet supported by ts-joi-schema-generator: " ++ text)
  -- _compileFunctionTypeNode (147-152)
  | _, .functionType => .ok ("Joi.func()", [])
  -- _compileTypeLiteralNode (153-156)
  | _, .typeLiteral members =>
    match compileList c false members with
    | .error e => .error e
    | .ok (ts, ds) =>
      .ok ("Joi.object().keys(\x7b\n" ++
        String.join (ts.map (fun n => "  " ++ indent n ++ ",\n")) ++ "\x7d)", ds)
  -- _compileArrayTypeNode (157-159)
  | _, .arrayType elementType =>
    match compileNode c false elementType with
    | .error e => .error e
    | .ok (t, d) => .ok ("Joi.array().items(" ++ t ++ ")", d)
  -- _compileTupleTypeNode (160-163)
  | _, .tupleType elementTypes =>
    match compileList c false elementTypes with
    | .error e => .error e
    | .ok (ts, ds) => .ok ("Joi.array().ordered(" ++ String.intercalate ", " ts ++ ")", ds)
  -- _compileUnionTypeNode (164-167)
  | _, .unionType types =>
    match compileList c false types with
    | .error e => .error e
    | .ok (ts, ds) => .ok ("Joi.alternatives(" ++ String.intercalate ", " ts ++ ")", ds)
  -- _compileLiteralTypeNode (168-170): Joi.valid(node.getText())
  | _, .literalType text => .ok ("Joi.valid(" ++ text ++ ")", [])
  -- _compileEnumDeclaration (171-182)
  | _, .enumDecl tags symName members =>
    if hasTag tags "schema" then
      .ok ("export const " ++ getName symName ++ " = Joi.valid(" ++
        String.intercalate ", " (members.map getTextOfConstantValue) ++ ").strict();",
        [getName symName])
    else .ok ("", [])
  -- _compileInterfaceDeclaration (183-208)
  | _, .interfaceDecl tags symName members heritage =>
    if hasTag tags "schema" then
      match compileList c false members with
      | .error e => .error e
      | .ok (mts, mds) =>
        match compileList c false heritage with
        | .error e => .error e
        | .ok (extend, hds) =>
          -- extend.indexOf('Array') !== -1: drop the whole declaration (200-203)
          if extend.contains "Array" then .ok ("", mds ++ hds)
          else
            .ok ("export const " ++ getName symName ++ " = Joi.object()" ++
              String.join (extend.map (fun e => ".concat(" ++ e ++ ")")) ++
              ".keys(\x7b\n" ++
              String.join (((mts.filter (fun n => n != ignoreNode)).map
                (fun n => "  " ++ indent n ++ ",\n"))) ++
              "\x7d).strict();",
              mds ++ hds ++ [getName symName])
    else .ok ("", [])
  -- _compileTypeAliasDeclaration (209-220); the name is pushed before the
  -- aliased type is compiled
  | _, .typeAliasDecl tags symName ty =>
    if hasTag tags "schema" then
      match compileNode c false ty with
      | .error e => .error e
      | .ok (compiled, d) =>
        .ok ("export const " ++ getName symName ++ " = " ++
          (if strStartsWith compiled "\"" then "Joi.valid(" ++ compiled ++ ")" else compiled) ++
          ".strict();", getName symName :: d)
    else .ok ("", [])
  -- _compileExpressionWithTypeArguments (221-223)
  | _, .exprWithTypeArgs expression => compileNode c false expression
  -- _compileParenthesizedTypeNode (224-226)
  | _, .parenType ty => compileNode c false ty
  -- _compileExportDeclaration (227-259)
  | _, .exportDecl exportClause moduleSpecifier =>
    match exportClause, moduleSpecifier with
    | some elems, some rawSpec =>
      if strStartsWith (stripQuotes rawSpec) "." then
        .ok ("export \x7b " ++ renderClauseParts elems ++ " \x7d from \x27" ++
          formatOutPath c.options (stripQuotes rawSpec) ++ "\x27", [])
      else .ok ("", [])
    | _, _ => .ok ("", [])
  -- _compileImportDeclaration (260-306): the rewrite branch for a relative
  -- specifier with named imports returns first; only otherwise is the
  -- inlineImports block (296-304) reached, which compiles the resolved
  -- declarations and joins their texts with the empty separator
  | _, .importDecl importClause rawSpec resolvedDecls =>
    match rewriteNamedImport c.options importClause rawSpec with
    | some s => .ok (s, [])
    | none =>
      if c.options.inlineImports then
        match compileList c false resolvedDecls with
        | .error e => .error e
        | .ok (ts, ds) => .ok (String.join ts, ds)
      else .ok ("", [])
  -- _compileSourceFile (307-324): statements are compiled with the
  -- parent-is-source-file flag set; only the top node gets the preamble
  | _, .sourceFile fileId statements =>
    match compileList c true statements with
    | .error e => .error e
    | .ok (ts, ds) =>
      if fileId == c.topId then
        .ok ("import * as Joi from \"joi\";\n// tslint:disable:object-literal-key-quotes\n\n" ++
          (String.intercalate "\n\n" (ts.filter (fun s => s != "")) ++ "\n\n"), ds)
      else .ok (String.intercalate "\n\n" (ts.filter (fun s => s != "")), ds)
  | _, .anyKeyword => .ok ("Joi.any()", [])
  | _, .numberKeyword => .ok ("Joi.number()", [])
  | _, .objectKeyword => .ok ("Joi.object()", [])
  | _, .booleanKeyword => .ok ("Joi.boolean()", [])
  | _, .stringKeyword => .ok ("Joi.string()", [])
  | _, .symbolKeyword => .ok ("Joi.symbol()", [])
  | _, .undefinedKeyword => .ok ("Joi.valid(undefined)", [])
  | _, .nullKeyword => .ok ("Joi.valid(null)", [])
  | _, .neverKeyword => .ok ("Joi.forbidden()", [])
  -- _compileIndexSignatureDeclaration (325-332): throws even at top level,
  -- because the kind is handled inside the switch
  | _, .indexSignature text =>
    if c.options.ignoreIndexSignature then .ok (ignoreNode, [])
    else .error ("Node IndexSignature not supported by ts-joi-schema-generator: " ++ text)
  -- catch-all after the switch (95-98): skip a direct top-level statement
  -- of a source file, throw for a nested unrecognized node
  | parentIsSourceFile, .unsupported kindName text =>
    if parentIsSourceFile then .ok ("", [])
    else .error ("Node " ++ kindName ++ " not supported by ts-joi-schema-generator: " ++ text)

/-- compileOptType (src/lib/index.ts:101-103). -/
def compileOptType (c : Compiler) : Option TsNode → CompRes
  | some t => compileNode c false t
  | none => .ok ("Joi.any()", [])

/-- Sequential compilation of a node list, as every `.map(this.compileNode,
this)` in the source performs it: texts in order, pushed names
concatenated, the first thrown error propagated. -/
def compileList (c : Compiler) (parentIsSourceFile : Bool) :
    List TsNode → Except String (List String × List String)
  | [] => .ok ([], [])
  | n :: ns =>
    match compileNode c parentIsSourceFile n with
    | .error e => .error e
    | .ok (t, d) =>
      match compileList c parentIsSourceFile ns with
      | .error e => .error e
      | .ok (ts, ds) => .ok (t :: ts, d ++ ds)

end

/-- Helper: a list of nodes that each compile successfully pushing no names
compiles, as a list, to the list of their texts with no pushed names. -/
theorem compileList_of_forall2 (c : Compiler) (psf : Bool)
    {ns : List TsNode} {es : List String}
    (h : List.Forall₂ (fun n e => compileNode c psf n = .ok (e, [])) ns es) :
    compileList c psf ns = .ok (es, []) := by
  induction h with
  | nil => rfl
  | cons h1 h2 ih => simp [compileList, h1, ih]

/-- Helper: a string with a nonempty left part is nonempty. -/
theorem append_ne_empty_of_left (s t : String) (h : s.length ≠ 0) : s ++ t ≠ "" := by
  intro he
  have hl : (s ++ t).length = 0 := by rw [he]; rfl
  rw [String.length_append] at hl
  omega

/-- Helper: a compiled property-signature entry is never the ignore
sentinel (it opens with a quoted name). -/
theorem entry_ne_empty (g v : String) : ("\x27" ++ g ++ "\x27: " ++ v) ≠ "" := by
  apply append_ne_empty_of_left
  rw [String.length_append, String.length_append]
  have h1 : ("\x27").length = 1 := rfl
  omega

/-- C10: a record field (property signature) with no declared type
annotation does not fail to translate; its schema expression defaults to
`Joi.any()`, and the entry carries `.required()` exactly when the field has
no optional marker. -/
theorem c10_untyped_field_defaults_any (c : Compiler) (psf : Bool)
    (symName : Option String) (q : Bool) :
    compileNode c psf (.propertySignature symName q none) =
      .ok ("\x27" ++ getName symName ++ "\x27: " ++
        (if q then "Joi.any()" else "Joi.any().required()"), []) := by
  cases q <;> rfl

/-- C3: a node of a kind outside the supported grammar compiles to the
empty fragment when it is a direct top-level statement of a module (its
parent is a source file, so the flag is set), and throws the
UnsupportedConstruct error when nested; a source file whose statement list
holds such a node therefore compiles, dropping it silently. -/
theorem c3_unsupported_construct_asymmetry (c : Compiler) (kindName text : String) :
    compileNode c true (.unsupported kindName text) = .ok ("", []) ∧
    compileNode c false (.unsupported kindName text) =
      .error ("Node " ++ kindName ++ " not supported by ts-joi-schema-generator: " ++ text) ∧
    (∀ fid : Nat, fid ≠ c.topId →
      compileNode c false (.sourceFile fid [.unsupported kindName text]) = .ok ("", [])) := by
  refine ⟨rfl, rfl, ?_⟩
  intro fid hfid
  simp [compileNode, compileList, hfid, String.intercalate]

/-- C3 witness: a variable statement at the top level of a non-root module
is silently skipped. -/
theorem c3_unsupported_construct_asymmetry_witness :
    compileNode ⟨⟨false, false, false, none, "-schema"⟩, 0⟩ false
      (.sourceFile 1 [.unsupported "VariableStatement" "const x = 1;"]) = .ok ("", []) :=
  (c3_unsupported_construct_asymmetry ⟨⟨false, false, false, none, "-schema"⟩, 0⟩
    "VariableStatement" "const x = 1;").2.2 1 (by decide)

/-- C2: a type reference named `Array` with type arguments compiles to the
array-items wrapper around its first type argument's translation, for any
options (in particular for either value of `ignoreGenerics`); any other
parametrized type reference compiles to `Joi.any()` when `ignoreGenerics`
is set and throws the UnsupportedGenerics error when it is not. -/
theorem c2_type_reference_generics (c : Compiler) (psf : Bool)
    (text typeNameText : String) (a : TsNode) (rest args : List TsNode)
    (t : String) (d : List String) :
    (compileNode c false a = .ok (t, d) →
      compileNode c psf (.typeRef text "Array" (some (a :: rest))) =
        .ok ("Joi.array().items(" ++ t ++ ")", d)) ∧
    (typeNameText ≠ "Array" → c.options.ignoreGenerics = true →
      compileNode c psf (.typeRef text typeNameText (some args)) = .ok ("Joi.any()", [])) ∧
    (typeNameText ≠ "Array" → c.options.ignoreGenerics = false →
      compileNode c psf (.typeRef text typeNameText (some args)) =
        .error ("Generics are not yet supported by ts-joi-schema-generator: " ++ text)) := by
  refine ⟨?_, ?_, ?_⟩
  · intro h; simp [compileNode, h]
  · intro hne hg; rcases args with _ | ⟨a0, rest0⟩ <;> simp [compileNode, hne, hg]
  · intro hne hg; rcases args with _ | ⟨a0, rest0⟩ <;> simp [compileNode, hne, hg]

/-- C2 witness: `Array<number>` compiles to `Joi.array().items(Joi.number())`
with generics not ignored; `Promise<number>` compiles to `Joi.any()` with
`ignoreGenerics` set and throws without it. -/
theorem c2_type_reference_generics_witness :
    compileNode ⟨⟨false, false, false, none, "-schema"⟩, 0⟩ false
        (.typeRef "Array<number>" "Array" (some [.numberKeyword])) =
      .ok ("Joi.array().items(Joi.number())", []) ∧
    compileNode ⟨⟨true, false, false, none, "-schema"⟩, 0⟩ false
        (.typeRef "Promise<number>" "Promise" (some [.numberKeyword])) =
      .ok ("Joi.any()", []) ∧
    compileNode ⟨⟨false, false, false, none, "-schema"⟩, 0⟩ false
        (.typeRef "Promise<number>" "Promise" (some [.numberKeyword])) =
      .error ("Generics are not yet supported by ts-joi-schema-generator: Promise<number>") := by
  refine ⟨?_, ?_, ?_⟩
  · exact ((c2_type_reference_generics ⟨⟨false, false, false, none, "-schema"⟩, 0⟩ false
      "Array<number>" "Array" .numberKeyword [] [] "Joi.number()" []).1 rfl).trans (by rfl)
  · exact (c2_type_reference_generics ⟨⟨true, false, false, none, "-schema"⟩, 0⟩ false
      "Promise<number>" "Promise" .numberKeyword [] [.numberKeyword] "" []).2.1
      (by decide) rfl
  · exact ((c2_type_reference_generics ⟨⟨false, false, false, none, "-schema"⟩, 0⟩ false
      "Promise<number>" "Promise" .numberKeyword [] [.numberKeyword] "" []).2.2
      (by decide) rfl).trans (by rfl)

/-- C4: an enumeration declaration without the `@schema` tag compiles to
the empty fragment with no exported name; with the tag it compiles to the
exported binding of its name to `Joi.valid(...)` over the members' folded
constant values in declaration order, with the trailing `.strict()`
modifier, and the name is pushed onto the exported-name list. -/
theorem c4_enum_declaration_compile (c : Compiler) (psf : Bool)
    (tags : List String) (symName : Option String)
    (members : List (Option ConstValue)) :
    (hasTag tags "schema" = false →
      compileNode c psf (.enumDecl tags symName members) = .ok ("", [])) ∧
    (hasTag tags "schema" = true →
      compileNode c psf (.enumDecl tags symName members) =
        .ok ("export const " ++ getName symName ++ " = Joi.valid(" ++
          String.intercalate ", " (members.map getTextOfConstantValue) ++ ").strict();",
          [getName symName])) := by
  constructor <;> intro h <;> simp [compileNode, h]

/-- C4 witness: a tagged two-member enum renders both constant values in
order under `.strict()`; the same enum untagged renders nothing. -/
theorem c4_enum_declaration_compile_witness :
    compileNode ⟨⟨false, false, false, none, "-schema"⟩, 0⟩ false
        (.enumDecl ["@schema"] (some "Color") [some (.num 0), some (.str "red")]) =
      .ok ("export const Color = Joi.valid(0, \"red\").strict();", ["Color"]) ∧
    compileNode ⟨⟨false, false, false, none, "-schema"⟩, 0⟩ false
        (.enumDecl [] (some "Color") [some (.num 0), some (.str "red")]) =
      .ok ("", []) := by
  constructor
  · exact ((c4_enum_declaration_compile ⟨⟨false, false, false, none, "-schema"⟩, 0⟩ false
      ["@schema"] (some "Color") [some (.num 0), some (.str "red")]).2 rfl).trans (by rfl)
  · exact (c4_enum_declaration_compile ⟨⟨false, false, false, none, "-schema"⟩, 0⟩ false
      [] (some "Color") [some (.num 0), some (.str "red")]).1 rfl

/-- C5 counterexample: a whole file holding a tagged enum with one
unresolvable member constant compiles successfully (the member renders as
the literal text `undefined`); no fatal condition is raised. -/
theorem c5_unresolved_constant_counterexample :
    compileNode ⟨⟨false, false, false, none, "-schema"⟩, 0⟩ false
      (.sourceFile 0 [.enumDecl ["@schema"] (some "Direction") [some (.num 1), none]]) =
      .ok ("import * as Joi from \"joi\";\n// tslint:disable:object-literal-key-quotes\n\nexport const Direction = Joi.valid(1, undefined).strict();\n\n", ["Direction"]) := by
  rfl

/-- C5 (amended): when a member's folded constant value cannot be resolved,
compilation of the enum does not fail; the unresolved member renders as the
literal text `undefined` at its position in the ValidValues list, and the
rest of the output is unchanged. -/
theorem c5_unresolved_constant_amended (c : Compiler) (psf : Bool)
    (tags : List String) (symName : Option String)
    (pre post : List (Option ConstValue))
    (htag : hasTag tags "schema" = true) :
    compileNode c psf (.enumDecl tags symName (pre ++ none :: post)) =
      .ok ("export const " ++ getName symName ++ " = Joi.valid(" ++
        String.intercalate ", " (pre.map getTextOfConstantValue ++
          "undefined" :: post.map getTextOfConstantValue) ++ ").strict();",
        [getName symName]) := by
  simp [compileNode, htag, getTextOfConstantValue]

/-- C5 witness: a two-member enum whose second constant is unresolved
compiles to `Joi.valid(1, undefined).strict()`. -/
theorem c5_unresolved_constant_amended_witness :
    compileNode ⟨⟨false, false, false, none, "-schema"⟩, 0⟩ false
      (.enumDecl ["@schema"] (some "Direction") [some (.num 1), none]) =
      .ok ("export const Direction = Joi.valid(1, undefined).strict();", ["Direction"]) :=
  (c5_unresolved_constant_amended ⟨⟨false, false, false, none, "-schema"⟩, 0⟩ false
    ["@schema"] (some "Direction") [some (.num 1)] [] rfl).trans (by rfl)

/-- Helper: compiling a list of property signatures whose declared types
compile to the given texts yields the rendered entries in order: quoted
name, the type's expression, and `.required()` exactly when the optional
marker is absent. -/
theorem compileList_propertySignatures (c : Compiler)
    {ps : List (Option String × Bool × Option TsNode)} {ts : List String}
    (h : List.Forall₂ (fun p t => compileOptType c p.2.2 = .ok (t, [])) ps ts) :
    compileList c false (ps.map (fun p => TsNode.propertySignature p.1 p.2.1 p.2.2)) =
      .ok ((ps.zip ts).map (fun q =>
        "\x27" ++ getName q.1.1 ++ "\x27: " ++
          (if q.1.2.1 then q.2 else q.2 ++ ".required()")), []) := by
  induction h with
  | nil => rfl
  | cons h1 h2 ih => simp [compileList, compileNode, h1, ih]

/-- Helper: full shape of a compiled eligible interface declaration whose
members are property signatures with successfully compiling types and whose
heritage expressions compile to the given texts: dropped entirely when one
of those texts is `Array`, otherwise the object template with one `.concat`
per heritage expression (in order) before `.keys`, entries in member order,
and `.strict()` last. -/
theorem interfaceDecl_compile_template (c : Compiler) (psf : Bool)
    (tags : List String) (symName : Option String)
    {ps : List (Option String × Bool × Option TsNode)} {ts : List String}
    {hs : List TsNode} {es : List String}
    (htag : hasTag tags "schema" = true)
    (hmem : List.Forall₂ (fun p t => compileOptType c p.2.2 = .ok (t, [])) ps ts)
    (hher : List.Forall₂ (fun n e => compileNode c false n = .ok (e, [])) hs es) :
    compileNode c psf (.interfaceDecl tags symName
        (ps.map (fun p => TsNode.propertySignature p.1 p.2.1 p.2.2)) hs) =
      if es.contains "Array" then .ok ("", [])
      else
        .ok ("export const " ++ getName symName ++ " = Joi.object()" ++
          String.join (es.map (fun e => ".concat(" ++ e ++ ")")) ++
          ".keys(\x7b\n" ++
          String.join ((ps.zip ts).map (fun q =>
            "  " ++ indent ("\x27" ++ getName q.1.1 ++ "\x27: " ++
              (if q.1.2.1 then q.2 else q.2 ++ ".required()")) ++ ",\n")) ++
          "\x7d).strict();", [getName symName]) := by
  have hm := compileList_propertySignatures c hmem
  have hh := compileList_of_forall2 c false hher
  have hfilter : ((ps.zip ts).map (fun q =>
      "\x27" ++ getName q.1.1 ++ "\x27: " ++
        (if q.1.2.1 then q.2 else q.2 ++ ".required()"))).filter
      (fun n => n != ignoreNode) =
      (ps.zip ts).map (fun q =>
        "\x27" ++ getName q.1.1 ++ "\x27: " ++
          (if q.1.2.1 then q.2 else q.2 ++ ".required()")) := by
    apply List.filter_eq_self.mpr
    intro a ha
    obtain ⟨q, hq, rfl⟩ := List.mem_map.mp ha
    simpa [ignoreNode] using entry_ne_empty (getName q.1.1)
      (if q.1.2.1 then q.2 else q.2 ++ ".required()")
  simp only [compileNode, htag, if_true, hm, hh]
  cases hc : es.contains "Array" with
  | true => simp
  | false => simp [hfilter, List.map_map, Function.comp_def]

/-- Helper: joining the empty string list yields the empty string. -/
theorem string_join_nil : String.join ([] : List String) = "" := rfl

/-- C1: an eligible (tagged) interface declaration whose members are
property signatures compiles to an ObjectShape with exactly one entry per
field — the zip with the fields' compiled type texts, so entry count equals
field count — in declaration order, where an entry carries `.required()`
exactly when its field has no question token. -/
theorem c1_interface_object_shape (c : Compiler) (psf : Bool)
    (tags : List String) (symName : Option String)
    (ps : List (Option String × Bool × Option TsNode)) (ts : List String)
    (htag : hasTag tags "schema" = true)
    (hmem : List.Forall₂ (fun p t => compileOptType c p.2.2 = .ok (t, [])) ps ts) :
    (ps.zip ts).length = ps.length ∧
    compileNode c psf (.interfaceDecl tags symName
        (ps.map (fun p => TsNode.propertySignature p.1 p.2.1 p.2.2)) []) =
      .ok ("export const " ++ getName symName ++ " = Joi.object()" ++
        ".keys(\x7b\n" ++
        String.join ((ps.zip ts).map (fun q =>
          "  " ++ indent ("\x27" ++ getName q.1.1 ++ "\x27: " ++
            (if q.1.2.1 then q.2 else q.2 ++ ".required()")) ++ ",\n")) ++
        "\x7d).strict();", [getName symName]) := by
  constructor
  · simp [List.length_zip, hmem.length_eq]
  · have h := interfaceDecl_compile_template c psf tags symName htag hmem List.Forall₂.nil
    rw [h]
    simp [string_join_nil, String.append_empty]

/-- C1 witness: a tagged interface with required `x: number` and optional
`label?: string` compiles to two entries in order, only the first with
`.required()`. -/
theorem c1_interface_object_shape_witness :
    compileNode ⟨⟨false, false, false, none, "-schema"⟩, 0⟩ false
      (.interfaceDecl ["@schema"] (some "Point")
        [.propertySignature (some "x") false (some .numberKeyword),
         .propertySignature (some "label") true (some .stringKeyword)] []) =
      .ok ("export const Point = Joi.object().keys(\x7b\n  \x27x\x27: Joi.number().required(),\n  \x27label\x27: Joi.string(),\n\x7d).strict();", ["Point"]) := by
  have h := (c1_interface_object_shape ⟨⟨false, false, false, none, "-schema"⟩, 0⟩ false
    ["@schema"] (some "Point")
    [(some "x", false, some .numberKeyword), (some "label", true, some .stringKeyword)]
    ["Joi.number()", "Joi.string()"] rfl
    (List.Forall₂.cons rfl (List.Forall₂.cons rfl List.Forall₂.nil))).2
  exact h.trans (by rfl)

/-- C6: an eligible interface declaration with inheritance clauses, none of
whose translated texts is `Array`, compiles to the base `Joi.object()`
chained with one `.concat(e)` per inherited expression in clause order, all
before the trailing `.keys(...)` carrying the member entries, with
`.strict()` applied at the end. -/
theorem c6_inheritance_concat_order (c : Compiler) (psf : Bool)
    (tags : List String) (symName : Option String)
    (ps : List (Option String × Bool × Option TsNode)) (ts : List String)
    (hs : List TsNode) (es : List String)
    (htag : hasTag tags "schema" = true)
    (hmem : List.Forall₂ (fun p t => compileOptType c p.2.2 = .ok (t, [])) ps ts)
    (hher : List.Forall₂ (fun n e => compileNode c false n = .ok (e, [])) hs es)
    (hnoarr : es.contains "Array" = false) :
    compileNode c psf (.interfaceDecl tags symName
        (ps.map (fun p => TsNode.propertySignature p.1 p.2.1 p.2.2)) hs) =
      .ok ("export const " ++ getName symName ++ " = Joi.object()" ++
        String.join (es.map (fun e => ".concat(" ++ e ++ ")")) ++
        ".keys(\x7b\n" ++
        String.join ((ps.zip ts).map (fun q =>
          "  " ++ indent ("\x27" ++ getName q.1.1 ++ "\x27: " ++
            (if q.1.2.1 then q.2 else q.2 ++ ".required()")) ++ ",\n")) ++
        "\x7d).strict();", [getName symName]) := by
  have h := interfaceDecl_compile_template c psf tags symName htag hmem hher
  rw [h, hnoarr]
  simp

/-- C6 witness: a tagged interface extending `A` and `B` compiles to
`Joi.object().concat(A).concat(B).keys(...)` with the concats in clause
order before `.keys`. -/
theorem c6_inheritance_concat_order_witness :
    compileNode ⟨⟨false, false, false, none, "-schema"⟩, 0⟩ false
      (.interfaceDecl ["@schema"] (some "ISub")
        [.propertySignature (some "x") false (some .numberKeyword)]
        [.exprWithTypeArgs (.ident "A"), .exprWithTypeArgs (.ident "B")]) =
      .ok ("export const ISub = Joi.object().concat(A).concat(B).keys(\x7b\n  \x27x\x27: Joi.number().required(),\n\x7d).strict();", ["ISub"]) := by
  have h := c6_inheritance_concat_order ⟨⟨false, false, false, none, "-schema"⟩, 0⟩ false
    ["@schema"] (some "ISub") [(some "x", false, some .numberKeyword)] ["Joi.number()"]
    [.exprWithTypeArgs (.ident "A"), .exprWithTypeArgs (.ident "B")] ["A", "B"] rfl
    (List.Forall₂.cons rfl List.Forall₂.nil)
    (List.Forall₂.cons rfl (List.Forall₂.cons rfl List.Forall₂.nil)) (by decide)
  exact h.trans (by rfl)

/-- C7: an eligible interface declaration one of whose inherited
expressions' translated literal text equals `Array` compiles to the empty
fragment: nothing is emitted, no name is pushed onto the exported-name
list, and no error is raised. -/
theorem c7_array_heritage_drop (c : Compiler) (psf : Bool)
    (tags : List String) (symName : Option String)
    (ps : List (Option String × Bool × Option TsNode)) (ts : List String)
    (hs : List TsNode) (es : List String)
    (htag : hasTag tags "schema" = true)
    (hmem : List.Forall₂ (fun p t => compileOptType c p.2.2 = .ok (t, [])) ps ts)
    (hher : List.Forall₂ (fun n e => compileNode c false n = .ok (e, [])) hs es)
    (hhasarr : es.contains "Array" = true) :
    compileNode c psf (.interfaceDecl tags symName
        (ps.map (fun p => TsNode.propertySignature p.1 p.2.1 p.2.2)) hs) =
      .ok ("", []) := by
  have h := interfaceDecl_compile_template c psf tags symName htag hmem hher
  rw [h, hhasarr]
  simp

/-- C7 witness: a tagged interface whose heritage clause names `Array` is
dropped: empty output, no exported name, no error. -/
theorem c7_array_heritage_drop_witness :
    compileNode ⟨⟨false, false, false, none, "-schema"⟩, 0⟩ false
      (.interfaceDecl ["@schema"] (some "IArr")
        [.propertySignature (some "x") false (some .numberKeyword)]
        [.exprWithTypeArgs (.ident "Array")]) = .ok ("", []) :=
  c7_array_heritage_drop ⟨⟨false, false, false, none, "-schema"⟩, 0⟩ false
    ["@schema"] (some "IArr") [(some "x", false, some .numberKeyword)] ["Joi.number()"]
    [.exprWithTypeArgs (.ident "Array")] ["Array"] rfl
    (List.Forall₂.cons rfl List.Forall₂.nil)
    (List.Forall₂.cons rfl List.Forall₂.nil) (by decide)

/-- C8 (code behavior at the failing input): under the default
output-directory policy, the relative specifier `./foo` with suffix
`-schema` is rewritten by concatenating `path.dirname("./foo") = "."`
directly with the suffixed base name — no path separator is inserted — so
the emitted specifier is `.foo-schema`, not `./foo-schema`; the per-element
`original as local` aliasing is preserved verbatim.  The same happens for
the export form. -/
theorem c8_import_rewrite_missing_separator :
    compileNode ⟨⟨false, false, false, none, "-schema"⟩, 0⟩ false
        (.importDecl (some ⟨some (.namedImports [⟨none, "Foo"⟩, ⟨some "Foo", "FooAlias"⟩])⟩)
          "\x27./foo\x27" []) =
      .ok ("import \x7b Foo, Foo as FooAlias \x7d from \x27.foo-schema\x27", []) ∧
    compileNode ⟨⟨false, false, false, none, "-schema"⟩, 0⟩ false
        (.exportDecl (some [⟨none, "Foo"⟩]) (some "\x27./foo\x27")) =
      .ok ("export \x7b Foo \x7d from \x27.foo-schema\x27", []) := by
  constructor <;> rfl

/-- C9 (code behavior at the failing input): with `inlineImports` enabled,
a relative import with named bindings whose target module resolves to a
source file holding a tagged declaration is still rewritten — the rewrite
branch returns before the inlining block is reached — so nothing is inlined
and no exported name is recorded, while the same import without an import
clause does get its target's declarations compiled in place. -/
theorem c9_named_relative_import_not_inlined :
    compileNode ⟨⟨false, false, true, none, "-schema"⟩, 0⟩ false
        (.importDecl (some ⟨some (.namedImports [⟨none, "IFoo"⟩])⟩) "\x27./a\x27"
          [.sourceFile 1 [.interfaceDecl ["@schema"] (some "IFoo")
            [.propertySignature (some "x") false (some .numberKeyword)] []]]) =
      .ok ("import \x7b IFoo \x7d from \x27.a-schema\x27", []) ∧
    compileNode ⟨⟨false, false, true, none, "-schema"⟩, 0⟩ false
        (.importDecl none "\x27./a\x27"
          [.sourceFile 1 [.interfaceDecl ["@schema"] (some "IFoo")
            [.propertySignature (some "x") false (some .numberKeyword)] []]]) =
      .ok ("export const IFoo = Joi.object().keys(\x7b\n  \x27x\x27: Joi.number().required(),\n\x7d).strict();", ["IFoo"]) := by
  constructor <;> rfl
